import Mathlib

/-!
Verification development for the trend-farmer notebook
(src/02_trend_farmer/notebook.ipynb).

The notebook defines a two-stage LangGraph pipeline:
fetch_page_node performs one HTTP GET and records either the body or a
failure message, and extract_videos_node parses the fetched markup with
BeautifulSoup and collects up to 20 TrendingVideo records from the
group-all section of the page.

The embedding below models the parsed HTML document as a tree of nodes
(raw markup is identified with its deterministic parse, since the
html parser is total on strings and the code only ever consumes the
parsed soup), the BeautifulSoup lookups used by the notebook (find,
find_parent, find_all, get_text, attribute access with class-token
matching), and both workflow nodes as pure functions from state to a
state update, with the LangGraph dict-merge made explicit.
-/

/-- An HTML node as produced by the parser: an element with a tag name,
an attribute list and children, or a text node. -/
inductive Node where
  | elem : String → List (String × String) → List Node → Node
  | text : String → Node

/-- First value bound to a key in an attribute list. -/
def getAttr (attrs : List (String × String)) (key : String) : Option String :=
  (attrs.find? (fun p => p.fst = key)).map Prod.snd

/-- Tag name of a node (text nodes have no tag). -/
def Node.tag : Node → String
  | .elem t _ _ => t
  | .text _ => ""

/-- Attribute list of a node. -/
def Node.attrList : Node → List (String × String)
  | .elem _ a _ => a
  | .text _ => []

/-- Children of a node. -/
def Node.children : Node → List Node
  | .elem _ _ c => c
  | .text _ => []

/-- Attribute lookup on a node, as tag.get(key) / tag[key]. -/
def Node.attr (n : Node) (k : String) : Option String :=
  getAttr n.attrList k

/-- Split a character list on spaces (the behavior of splitting an
attribute string on whitespace, specialized to the single-space
separators of this page). -/
def splitTok : List Char → List Char → List String
  | [], cur => [String.mk cur.reverse]
  | c :: cs, cur =>
    if c = ' ' then String.mk cur.reverse :: splitTok cs []
    else splitTok cs (c :: cur)

/-- The class tokens of a node: the class attribute split on spaces,
matching how the html parser exposes multi-valued class attributes. -/
def Node.classes (n : Node) : List String :=
  splitTok ((n.attr "class").getD "").data []

/-- Whether a node carries a given class token. -/
def Node.hasClass (n : Node) (c : String) : Bool :=
  n.classes.contains c

mutual

/-- All descendants of a node including itself, in document (preorder)
order, each paired with its ancestor chain (nearest ancestor first). -/
def nodeEntries (anc : List Node) : Node → List (Node × List Node)
  | .elem t a cs => (.elem t a cs, anc) :: listEntries (.elem t a cs :: anc) cs
  | .text s => [(.text s, anc)]

/-- Descendants of every node of a list, in document order, with
ancestor chains. -/
def listEntries (anc : List Node) : List Node → List (Node × List Node)
  | [] => []
  | c :: cs => nodeEntries anc c ++ listEntries anc cs

end

/-- Proper descendants of a node with their ancestor chains; the chain
of a direct child is [n]. This is the search space of tag.find and
tag.find_all in BeautifulSoup. -/
def Node.descendants (n : Node) : List (Node × List Node) :=
  listEntries [n] n.children

/-- soup.find / tag.find: the first proper descendant satisfying the
predicate, in document order, together with its ancestor chain. -/
def findDesc (p : Node → Bool) (n : Node) : Option (Node × List Node) :=
  n.descendants.find? (fun e => p e.fst)

/-- tag.find_all: every proper descendant satisfying the predicate, in
document order. -/
def findAllDesc (p : Node → Bool) (n : Node) : List Node :=
  (n.descendants.filter (fun e => p e.fst)).map Prod.fst

/-- tag.find_parent: the nearest ancestor satisfying the predicate. -/
def findParentNode (p : Node → Bool) (anc : List Node) : Option Node :=
  anc.find? p

/-- str.strip() on a character list: whitespace removed from both
ends. -/
def trimChars (cs : List Char) : List Char :=
  ((cs.dropWhile Char.isWhitespace).reverse.dropWhile
    Char.isWhitespace).reverse

/-- str.strip() on a string. -/
def stripStr (s : String) : String :=
  String.mk (trimChars s.data)

/-- tag.get_text(strip=True): the stripped text of every descendant
text node, concatenated in document order. -/
def Node.getTextStrip (n : Node) : String :=
  String.join (n.descendants.filterMap (fun e =>
    match e.fst with
    | .text s => some (stripStr s)
    | .elem _ _ _ => none))

/-- Value of a nonempty all-digit character list, none when a
non-digit appears. -/
def digitsVal : List Char → Nat → Option Nat
  | [], acc => some acc
  | c :: cs, acc =>
    if c.isDigit then digitsVal cs (acc * 10 + (c.toNat - 48)) else none

/-- Digits after an optional sign, by character list. -/
def parseIntChars : List Char → Option Int
  | [] => none
  | '-' :: cs =>
    match cs with
    | [] => none
    | _ => (digitsVal cs 0).map (fun n => -(n : Int))
  | '+' :: cs =>
    match cs with
    | [] => none
    | _ => (digitsVal cs 0).map Int.ofNat
  | cs => (digitsVal cs 0).map Int.ofNat

/-- int(s): surrounding whitespace allowed, then an optional sign and
digits; none models the ValueError a non-numeric string raises. -/
def parseInt (s : String) : Option Int :=
  parseIntChars (trimChars s.data)

/-- soup.find("h3", id="group-all"). -/
def isAllHeader (n : Node) : Bool :=
  n.tag = "h3" && n.attr "id" = some "group-all"

/-- find_parent("section", class_="page-section"). -/
def isPageSection (n : Node) : Bool :=
  n.tag = "section" && n.hasClass "page-section"

/-- find("ol", aria-labelledby="group-all", class="video-list"). -/
def isVideoList (n : Node) : Bool :=
  n.tag = "ol" && n.attr "aria-labelledby" = some "group-all" &&
    n.hasClass "video-list"

/-- find_all("li", class_="video-item"). -/
def isVideoItem (n : Node) : Bool :=
  n.tag = "li" && n.hasClass "video-item"

/-- The class list the notebook passes when looking up the rank span. -/
def rankSpanClasses : List String :=
  ["text-slate-400", "font-semibold", "text-xl", "p-4"]

/-- find("span", class_=[rank span classes]): a list of classes matches
when the element carries any one of them. -/
def isRankSpan (n : Node) : Bool :=
  n.tag = "span" && rankSpanClasses.any n.hasClass

/-- find("a", class_="video-link"). -/
def isVideoLink (n : Node) : Bool :=
  n.tag = "a" && n.hasClass "video-link"

/-- find("img", class_="thumbnail"). -/
def isThumbnail (n : Node) : Bool :=
  n.tag = "img" && n.hasClass "thumbnail"

/-- find("h4", class_="vc-title"). -/
def isTitleElem (n : Node) : Bool :=
  n.tag = "h4" && n.hasClass "vc-title"

/-- The class list the notebook passes when looking up the info
paragraph. -/
def infoPClasses : List String :=
  ["text-sm", "text-slate-500"]

/-- find("p", class_=[info paragraph classes]). -/
def isInfoP (n : Node) : Bool :=
  n.tag = "p" && infoPClasses.any n.hasClass

/-- find_all("span", class_="font-medium") inside the info paragraph. -/
def isChannelSpan (n : Node) : Bool :=
  n.tag = "span" && n.hasClass "font-medium"

/-- The TrendingVideo dataclass of the notebook. -/
structure TrendingVideo where
  title : String
  channel : String
  thumbnail_url : String
  video_url : String
  rank : Int
deriving DecidableEq, Repr

/-- The WorkflowState TypedDict. raw_html holds the parsed form of the
fetched markup (see the module comment). -/
structure WorkflowState where
  url : String
  raw_html : Option Node
  trending_videos : List TrendingVideo
  error : Option String
  timestamp : Option String

/-- The dict a LangGraph node returns: each field present in the
update overwrites the corresponding state field on merge. -/
structure StateUpdate where
  raw_html : Option Node
  trending_videos : Option (List TrendingVideo)
  error : Option String
  timestamp : Option String

/-- LangGraph merge of a node result into the running state. -/
def applyUpdate (s : WorkflowState) (u : StateUpdate) : WorkflowState where
  url := s.url
  raw_html := match u.raw_html with | some h => some h | none => s.raw_html
  trending_videos :=
    match u.trending_videos with | some v => v | none => s.trending_videos
  error := match u.error with | some e => some e | none => s.error
  timestamp := match u.timestamp with | some t => some t | none => s.timestamp

/-- Outcome of the outbound HTTP GET from the perspective of
fetch_page_node: the parsed response body on success, or the message
of the raised exception on failure (timeout, connection failure or the
non-2xx status raised by raise_for_status); in both cases paired with
the timestamp datetime.now().isoformat() observed at return time. -/
inductive FetchOutcome where
  | success : Node → String → FetchOutcome
  | failure : String → String → FetchOutcome

/-- fetch_page_node: one GET against state.url; on success records the
body and the timestamp, on any exception records a prefixed failure
message and the timestamp. -/
def fetch_page_node (http : String → FetchOutcome) (s : WorkflowState) :
    StateUpdate :=
  match http s.url with
  | .success body t =>
    { raw_html := some body, trending_videos := none, error := none,
      timestamp := some t }
  | .failure msg t =>
    { raw_html := none, trending_videos := none,
      error := some ("Failed to fetch page: " ++ msg), timestamp := some t }

/-- Python truthiness of the error field: state.get("error") is truthy
exactly when the field is present and non-empty. -/
def errTruthy : Option String → Bool
  | some e => e ≠ ""
  | none => false

/-- What one loop iteration of extract_videos_node does with a list
entry, given the records accumulated so far: emit a record (binding the
local rank variable), skip the entry because its video link is absent
(rank already bound), or raise inside int() before rank is bound. -/
inductive ItemStep where
  | emit : TrendingVideo → Int → ItemStep
  | skipNoLink : Int → ItemStep
  | rankError : ItemStep

/-- The body of the loop after the rank value has been computed: drop
the entry when the video link is absent, otherwise build the record
from link href, thumbnail src, title text and the second font-medium
span of the info paragraph. -/
def afterRank (item : Node) (rank : Int) : ItemStep :=
  match findDesc isVideoLink item with
  | none => .skipNoLink rank
  | some (videoLink, _) =>
    let videoUrl := (videoLink.attr "href").getD ""
    let thumbnailUrl :=
      match findDesc isThumbnail videoLink with
      | some (img, _) => (img.attr "src").getD ""
      | none => ""
    let title :=
      match findDesc isTitleElem videoLink with
      | some (h, _) => h.getTextStrip
      | none => "No title"
    let channel :=
      match findDesc isInfoP videoLink with
      | some (p, _) =>
        let spans := findAllDesc isChannelSpan p
        if 2 ≤ spans.length then
          match spans.get? 1 with
          | some sp => sp.getTextStrip
          | none => ""
        else ""
      | none => ""
    .emit { title := title, channel := channel,
            thumbnail_url := thumbnailUrl, video_url := videoUrl,
            rank := rank } rank

/-- One loop iteration: read the rank span; when present, int() its
text (raising when non-numeric, before rank is bound), when absent fall
back to len(videos) + 1; then proceed with the entry. -/
def processItem (videos : List TrendingVideo) (item : Node) : ItemStep :=
  match findDesc isRankSpan item with
  | some (sp, _) =>
    match parseInt sp.getTextStrip with
    | some r => afterRank item r
    | none => .rankError
  | none => afterRank item (Int.ofNat videos.length + 1)

/-- Message of the UnboundLocalError raised when the except handler
prints the local rank before any iteration has bound it. -/
def unboundLocalMsg : String :=
  "cannot access local variable rank where it is not associated with a value"

/-- The extraction loop over the (already truncated) entry list. The
Option Int argument is the binding of the Python local rank from
earlier iterations: the except handler prints it, so a ValueError from
int() is swallowed and the entry skipped when rank is bound, but when
no iteration has bound rank yet the print raises UnboundLocalError,
which escapes the loop to the outer handler. -/
def extractItems :
    List Node → List TrendingVideo → Option Int →
      Except String (List TrendingVideo)
  | [], videos, _ => .ok videos
  | item :: rest, videos, lastRank =>
    match processItem videos item with
    | .emit v r => extractItems rest (videos ++ [v]) (some r)
    | .skipNoLink r => extractItems rest videos (some r)
    | .rankError =>
      match lastRank with
      | some r => extractItems rest videos (some r)
      | none => .error unboundLocalMsg

/-- The loop over video_items truncated to the top 20. -/
def extractTop (items : List Node) : Except String (List TrendingVideo) :=
  extractItems (items.take 20) [] none

/-- Message of the TypeError BeautifulSoup raises when handed None as
markup, as caught and stringified by the outer handler. -/
def noneTypeMsg : String :=
  "object of type NoneType has no len()"

/-- The body of extract_videos_node once a parsed soup exists: locate
the group-all header, its enclosing page-section, and the video list,
each absence a hard failure; then run the per-item loop, whose only
escaping exception is the UnboundLocalError of the except handler. -/
def extractFromSoup (soup : Node) : StateUpdate :=
  match findDesc isAllHeader soup with
  | none =>
    { raw_html := none, trending_videos := some [],
      error := some "Could not find the All section header",
      timestamp := none }
  | some (_, anc) =>
    match findParentNode isPageSection anc with
    | none =>
      { raw_html := none, trending_videos := some [],
        error := some "Could not find the All section container",
        timestamp := none }
    | some allSection =>
      match findDesc isVideoList allSection with
      | none =>
        { raw_html := none, trending_videos := some [],
          error := some "Could not find video list in All section",
          timestamp := none }
      | some (videoList, _) =>
        match extractTop (findAllDesc isVideoItem videoList) with
        | .ok videos =>
          { raw_html := none, trending_videos := some videos,
            error := none, timestamp := none }
        | .error msg =>
          { raw_html := none, trending_videos := some [],
            error := some ("Failed to extract videos: " ++ msg),
            timestamp := none }

/-- extract_videos_node: short-circuit on a truthy incoming error;
parse the raw markup (raising through the outer handler when it is
None); otherwise extract from the soup. -/
def extract_videos_node (s : WorkflowState) : StateUpdate :=
  if errTruthy s.error then
    { raw_html := none, trending_videos := some [], error := none,
      timestamp := none }
  else
    match s.raw_html with
    | none =>
      { raw_html := none, trending_videos := some [],
        error := some ("Failed to extract videos: " ++ noneTypeMsg),
        timestamp := none }
    | some soup => extractFromSoup soup

/-- The initial state the notebook invokes the compiled graph with. -/
def initialState (url : String) : WorkflowState where
  url := url
  raw_html := none
  trending_videos := []
  error := none
  timestamp := none

/-- One full run of the compiled graph: START, fetch_page,
extract_videos, END, merging each node result into the state. -/
def runPipeline (http : String → FetchOutcome) (s0 : WorkflowState) :
    WorkflowState :=
  let s1 := applyUpdate s0 (fetch_page_node http s0)
  applyUpdate s1 (extract_videos_node s1)

/-- The href the loop would read for an entry: the href of its first
video-link descendant, defaulted to the empty string, or the empty
string when the link is absent (in which case no record is emitted). -/
def hrefStr (item : Node) : String :=
  match findDesc isVideoLink item with
  | some (lk, _) => (lk.attr "href").getD ""
  | none => ""

/-- A list entry whose video link has no href attribute. -/
def itemNoHref : Node :=
  .elem "li" [("class", "video-item")]
    [.elem "a" [("class", "video-link")] []]

/-- A well-formed list entry: no rank label, a video link with the
given href. -/
def itemGood (u : String) : Node :=
  .elem "li" [("class", "video-item")]
    [.elem "a" [("class", "video-link"), ("href", u)] []]

/-- A list entry whose rank span carries non-numeric text and whose
video link is present. -/
def itemBadRank : Node :=
  .elem "li" [("class", "video-item")]
    [.elem "span" [("class", "text-slate-400")] [.text "x"],
     .elem "a" [("class", "video-link"), ("href", "u1")] []]

/-- A list entry whose info paragraph holds a single font-medium
span. -/
def itemOneSpan : Node :=
  .elem "li" [("class", "video-item")]
    [.elem "a" [("class", "video-link"), ("href", "u2")]
      [.elem "p" [("class", "text-sm")]
        [.elem "span" [("class", "font-medium")] [.text "by"]]]]

/-- A list entry whose info paragraph holds two font-medium spans,
the second being the channel name. -/
def itemTwoSpans : Node :=
  .elem "li" [("class", "video-item")]
    [.elem "a" [("class", "video-link"), ("href", "u4")]
      [.elem "p" [("class", "text-sm")]
        [.elem "span" [("class", "font-medium")] [.text "by"],
         .elem "span" [("class", "font-medium")] [.text "ChannelX"]]]]

/-- A document with all three landmarks around the given entries. -/
def mkDoc (items : List Node) : Node :=
  .elem "body" []
    [.elem "section" [("class", "page-section")]
      [.elem "h3" [("id", "group-all")] [.text "All"],
       .elem "ol" [("aria-labelledby", "group-all"),
         ("class", "video-list")] items]]

/-- A state as left by a successful fetch of the given document. -/
def fetchedState (doc : Node) : WorkflowState where
  url := "u"
  raw_html := some doc
  trending_videos := []
  error := none
  timestamp := some "t"

theorem afterRank_emit (item : Node) (r : Int) (v : TrendingVideo)
    (r' : Int) (h : afterRank item r = .emit v r') :
    r' = r ∧ v.rank = r ∧ (findDesc isVideoLink item).isSome ∧
      v.video_url = hrefStr item := by
  unfold afterRank at h
  cases hf : findDesc isVideoLink item with
  | none => rw [hf] at h; exact ItemStep.noConfusion h
  | some e =>
    obtain ⟨lk, anc⟩ := e
    rw [hf] at h
    simp only [ItemStep.emit.injEq] at h
    obtain ⟨hv, hr⟩ := h
    subst hv hr
    refine ⟨rfl, rfl, by simp [hf], ?_⟩
    simp [hrefStr, hf]

theorem processItem_emit (videos : List TrendingVideo) (item : Node)
    (v : TrendingVideo) (r : Int)
    (h : processItem videos item = .emit v r) :
    ∃ r0, afterRank item r0 = .emit v r := by
  unfold processItem at h
  cases hs : findDesc isRankSpan item with
  | none =>
    simp only [hs] at h
    exact ⟨_, h⟩
  | some e =>
    obtain ⟨sp, anc⟩ := e
    simp only [hs] at h
    cases hp : parseInt sp.getTextStrip with
    | none => simp only [hp] at h; exact ItemStep.noConfusion h
    | some r1 => simp only [hp] at h; exact ⟨r1, h⟩

theorem processItem_no_rank_span (videos : List TrendingVideo)
    (item : Node) (hs : findDesc isRankSpan item = none) :
    processItem videos item =
      afterRank item (Int.ofNat videos.length + 1) := by
  unfold processItem
  simp only [hs]

theorem processItem_bad_rank_text (videos : List TrendingVideo)
    (item sp : Node) (anc : List Node)
    (hs : findDesc isRankSpan item = some (sp, anc))
    (hp : parseInt sp.getTextStrip = none) :
    processItem videos item = .rankError := by
  unfold processItem
  simp only [hs, hp]

theorem extractItems_nil (acc : List TrendingVideo) (lr : Option Int) :
    extractItems [] acc lr = .ok acc := rfl

theorem extractItems_cons (item : Node) (rest : List Node)
    (acc : List TrendingVideo) (lr : Option Int) :
    extractItems (item :: rest) acc lr =
      match processItem acc item with
      | .emit v r => extractItems rest (acc ++ [v]) (some r)
      | .skipNoLink r => extractItems rest acc (some r)
      | .rankError =>
        match lr with
        | some r => extractItems rest acc (some r)
        | none => .error unboundLocalMsg := rfl

theorem extractItems_length :
    ∀ (l : List Node) (acc : List TrendingVideo) (lr : Option Int)
      (vs : List TrendingVideo), extractItems l acc lr = .ok vs →
      vs.length ≤ acc.length + l.length := by
  intro l
  induction l with
  | nil =>
    intro acc lr vs h
    simp only [extractItems, Except.ok.injEq] at h
    subst h
    simp
  | cons item rest ih =>
    intro acc lr vs h
    rw [extractItems_cons] at h
    cases hp : processItem acc item with
    | emit v r =>
      simp only [hp] at h
      have := ih (acc ++ [v]) (some r) vs h
      simp only [List.length_append, List.length_cons,
        List.length_nil] at this ⊢
      omega
    | skipNoLink r =>
      simp only [hp] at h
      have := ih acc (some r) vs h
      simp only [List.length_cons] at this ⊢
      omega
    | rankError =>
      simp only [hp] at h
      cases lr with
      | some r =>
        have := ih acc (some r) vs h
        simp only [List.length_cons] at this ⊢
        omega
      | none => exact absurd h (by simp)

theorem extractItems_mem :
    ∀ (l : List Node) (acc : List TrendingVideo) (lr : Option Int)
      (vs : List TrendingVideo), extractItems l acc lr = .ok vs →
      ∀ v ∈ vs, v ∈ acc ∨
        ∃ item ∈ l, ∃ acc2 r, processItem acc2 item = .emit v r := by
  intro l
  induction l with
  | nil =>
    intro acc lr vs h v hv
    simp only [extractItems, Except.ok.injEq] at h
    subst h
    exact Or.inl hv
  | cons item rest ih =>
    intro acc lr vs h v hv
    rw [extractItems_cons] at h
    cases hp : processItem acc item with
    | emit v' r =>
      simp only [hp] at h
      rcases ih (acc ++ [v']) (some r) vs h v hv with hin | ⟨it, hit, acc2, r2, he⟩
      · rcases List.mem_append.mp hin with hin | hin
        · exact Or.inl hin
        · refine Or.inr ⟨item, List.mem_cons_self _ _, acc, r, ?_⟩
          rw [hp, List.mem_singleton.mp hin]
      · exact Or.inr ⟨it, List.mem_cons_of_mem _ hit, acc2, r2, he⟩
    | skipNoLink r =>
      simp only [hp] at h
      rcases ih acc (some r) vs h v hv with hin | ⟨it, hit, acc2, r2, he⟩
      · exact Or.inl hin
      · exact Or.inr ⟨it, List.mem_cons_of_mem _ hit, acc2, r2, he⟩
    | rankError =>
      simp only [hp] at h
      cases lr with
      | some r =>
        rcases ih acc (some r) vs h v hv with hin | ⟨it, hit, acc2, r2, he⟩
        · exact Or.inl hin
        · exact Or.inr ⟨it, List.mem_cons_of_mem _ hit, acc2, r2, he⟩
      | none => exact absurd h (by simp)

theorem afterRank_link (item lk : Node) (anc : List Node) (r : Int)
    (hf : findDesc isVideoLink item = some (lk, anc)) :
    ∃ v, afterRank item r = .emit v r ∧ v.rank = r ∧
      v.video_url = hrefStr item := by
  unfold afterRank
  simp only [hf]
  exact ⟨_, rfl, rfl, by simp [hrefStr, hf]⟩

theorem extractItems_good :
    ∀ (l : List Node) (acc : List TrendingVideo) (lr : Option Int),
      (∀ item ∈ l, (findDesc isRankSpan item).isNone = true ∧
        (findDesc isVideoLink item).isSome = true) →
      ∃ vs, extractItems l acc lr = .ok (acc ++ vs) ∧
        vs.length = l.length ∧
        ∀ i, ∀ hv : i < vs.length, ∀ hl : i < l.length,
          (vs.get ⟨i, hv⟩).rank = Int.ofNat (acc.length + i) + 1 ∧
          (vs.get ⟨i, hv⟩).video_url = hrefStr (l.get ⟨i, hl⟩) := by
  intro l
  induction l with
  | nil =>
    intro acc lr _
    refine ⟨[], by simp [extractItems_nil], by simp, ?_⟩
    intro i hv
    exact absurd hv (by simp)
  | cons item rest ih =>
    intro acc lr hgood
    obtain ⟨hrs, hvl⟩ := hgood item (List.mem_cons_self _ _)
    have hrs' : findDesc isRankSpan item = none :=
      Option.isNone_iff_eq_none.mp hrs
    obtain ⟨e, he⟩ := Option.isSome_iff_exists.mp hvl
    obtain ⟨lk, anc⟩ := e
    have hstep : processItem acc item =
        afterRank item (Int.ofNat acc.length + 1) :=
      processItem_no_rank_span acc item hrs'
    obtain ⟨v, hv', hvrank, hvurl⟩ :=
      afterRank_link item lk anc (Int.ofNat acc.length + 1) he
    obtain ⟨vs', hok, hlen, hidx⟩ :=
      ih (acc ++ [v]) (some (Int.ofNat acc.length + 1))
        (fun it hit => hgood it (List.mem_cons_of_mem _ hit))
    refine ⟨v :: vs', ?_, ?_, ?_⟩
    · rw [extractItems_cons]
      simp only [hstep, hv']
      rw [hok]
      simp
    · simp [hlen]
    · intro i hv hl
      cases i with
      | zero =>
        refine ⟨?_, ?_⟩
        · simpa using hvrank
        · simpa using hvurl
      | succ j =>
        have hv2 : j < vs'.length := by
          simpa [Nat.succ_lt_succ_iff] using hv
        have hl2 : j < rest.length := by
          simpa [Nat.succ_lt_succ_iff] using hl
        obtain ⟨h1, h2⟩ := hidx j hv2 hl2
        refine ⟨?_, ?_⟩
        · have : (vs'.get ⟨j, hv2⟩).rank =
              Int.ofNat (acc.length + 1 + j) + 1 := by
            simpa [List.length_append] using h1
          simpa [Nat.add_assoc, Nat.add_comm 1 j] using this
        · simpa using h2

theorem fetch_msg_ne_empty (msg : String) :
    ("Failed to fetch page: " ++ msg) ≠ "" := by
  intro h
  have h2 := congrArg String.data h
  simp [String.data_append] at h2

/-- C8: the extractor is deterministic over its input: two states with
identical raw markup and identical incoming error yield identical
output updates (the extractor reads no other state field). -/
theorem extract_videos_deterministic (s1 s2 : WorkflowState)
    (hraw : s1.raw_html = s2.raw_html) (herr : s1.error = s2.error) :
    extract_videos_node s1 = extract_videos_node s2 := by
  unfold extract_videos_node
  rw [hraw, herr]

/-- C8 witness: two states differing in url, videos and timestamp but
agreeing on raw markup and error give the same extraction update. -/
theorem extract_videos_deterministic_witness :
    extract_videos_node
        { url := "a", raw_html := none, trending_videos := [],
          error := none, timestamp := none } =
      extract_videos_node
        { url := "b", raw_html := none, trending_videos := [],
          error := none, timestamp := some "t" } :=
  extract_videos_deterministic _ _ rfl rfl

/-- C10: when the incoming state carries no (truthy) error but the raw
markup is absent, the extractor still returns a defined update: empty
videos together with the general extraction error raised through the
outer handler. -/
theorem extractor_total_on_missing_markup (s : WorkflowState)
    (herr : errTruthy s.error = false) (hraw : s.raw_html = none) :
    extract_videos_node s =
      { raw_html := none, trending_videos := some [],
        error := some ("Failed to extract videos: " ++ noneTypeMsg),
        timestamp := none } := by
  unfold extract_videos_node
  rw [herr, hraw]
  simp

/-- C10 witness: the notebook initial state (no error, no markup). -/
theorem extractor_total_on_missing_markup_witness :
    extract_videos_node (initialState "u") =
      { raw_html := none, trending_videos := some [],
        error := some ("Failed to extract videos: " ++ noneTypeMsg),
        timestamp := none } :=
  extractor_total_on_missing_markup (initialState "u") rfl rfl

/-- C4: when the fetch fails (network error, timeout, or the exception
raised for a non-success status), the final state carries the non-empty
fetch error and no videos, and the extractor short-circuits to a
constant update: it never parses and never overwrites the fetch
error. -/
theorem fetch_failure_short_circuits (url msg t : String)
    (http : String → FetchOutcome)
    (hfail : http url = .failure msg t) :
    (runPipeline http (initialState url)).error =
        some ("Failed to fetch page: " ++ msg) ∧
    ("Failed to fetch page: " ++ msg) ≠ "" ∧
    (runPipeline http (initialState url)).trending_videos = [] ∧
    (runPipeline http (initialState url)).timestamp = some t ∧
    extract_videos_node
        (applyUpdate (initialState url)
          (fetch_page_node http (initialState url))) =
      { raw_html := none, trending_videos := some [], error := none,
        timestamp := none } := by
  have hne := fetch_msg_ne_empty msg
  have hs1 : applyUpdate (initialState url)
      (fetch_page_node http (initialState url)) =
      { url := url, raw_html := none, trending_videos := [],
        error := some ("Failed to fetch page: " ++ msg),
        timestamp := some t } := by
    unfold fetch_page_node initialState applyUpdate
    simp only [hfail]
  have hext : extract_videos_node
      (applyUpdate (initialState url)
        (fetch_page_node http (initialState url))) =
      { raw_html := none, trending_videos := some [], error := none,
        timestamp := none } := by
    rw [hs1]
    unfold extract_videos_node
    simp [errTruthy, hne]
  refine ⟨?_, hne, ?_, ?_, hext⟩
  all_goals
    simp only [runPipeline]
    rw [hext, hs1]
    rfl

/-- C4 witness: a concrete failing fetch. -/
theorem fetch_failure_short_circuits_witness :
    (runPipeline (fun _ => .failure "timeout" "t0")
        (initialState "u")).error =
        some ("Failed to fetch page: " ++ "timeout") ∧
    ("Failed to fetch page: " ++ "timeout") ≠ "" ∧
    (runPipeline (fun _ => .failure "timeout" "t0")
        (initialState "u")).trending_videos = [] ∧
    (runPipeline (fun _ => .failure "timeout" "t0")
        (initialState "u")).timestamp = some "t0" ∧
    extract_videos_node
        (applyUpdate (initialState "u")
          (fetch_page_node (fun _ => .failure "timeout" "t0")
            (initialState "u"))) =
      { raw_html := none, trending_videos := some [], error := none,
        timestamp := none } :=
  fetch_failure_short_circuits "u" "timeout" "t0" _ rfl

/-- C5: when the fetch succeeded but the document lacks the group-all
header landmark (or the enclosing page-section, or the video list),
the run ends with empty videos and a non-empty error, and the
timestamp set by the fetch remains set. -/
theorem missing_landmark_fails_extraction (url t : String) (soup : Node)
    (http : String → FetchOutcome) (hsucc : http url = .success soup t)
    (hmiss : findDesc isAllHeader soup = none ∨
      (∃ hd anc, findDesc isAllHeader soup = some (hd, anc) ∧
        findParentNode isPageSection anc = none) ∨
      (∃ hd anc sec, findDesc isAllHeader soup = some (hd, anc) ∧
        findParentNode isPageSection anc = some sec ∧
        findDesc isVideoList sec = none)) :
    (runPipeline http (initialState url)).trending_videos = [] ∧
    (runPipeline http (initialState url)).timestamp = some t ∧
    ∃ e, (runPipeline http (initialState url)).error = some e ∧
      e ≠ "" := by
  have hs1 : applyUpdate (initialState url)
      (fetch_page_node http (initialState url)) =
      { url := url, raw_html := some soup, trending_videos := [],
        error := none, timestamp := some t } := by
    unfold fetch_page_node initialState applyUpdate
    simp only [hsucc]
  have hext : ∃ e, e ≠ "" ∧ extract_videos_node
      (applyUpdate (initialState url)
        (fetch_page_node http (initialState url))) =
      { raw_html := none, trending_videos := some [],
        error := some e, timestamp := none } := by
    rw [hs1]
    unfold extract_videos_node
    simp only [errTruthy, Bool.false_eq_true, if_false]
    rcases hmiss with h1 | ⟨hd, anc, h1, h2⟩ | ⟨hd, anc, sec, h1, h2, h3⟩
    · refine ⟨"Could not find the All section header", by decide, ?_⟩
      unfold extractFromSoup
      simp only [h1]
    · refine ⟨"Could not find the All section container", by decide, ?_⟩
      unfold extractFromSoup
      simp only [h1, h2]
    · refine ⟨"Could not find video list in All section", by decide, ?_⟩
      unfold extractFromSoup
      simp only [h1, h2, h3]
  obtain ⟨e, hene, hextEq⟩ := hext
  refine ⟨?_, ?_, e, ?_, hene⟩
  all_goals
    simp only [runPipeline]
    rw [hextEq, hs1]
    rfl

/-- C5 witness: a fetched document with no group-all header. -/
theorem missing_landmark_fails_extraction_witness :
    (runPipeline (fun _ => .success (.elem "body" [] []) "t0")
        (initialState "u")).trending_videos = [] ∧
    (runPipeline (fun _ => .success (.elem "body" [] []) "t0")
        (initialState "u")).timestamp = some "t0" ∧
    ∃ e, (runPipeline (fun _ => .success (.elem "body" [] []) "t0")
        (initialState "u")).error = some e ∧ e ≠ "" :=
  missing_landmark_fails_extraction "u" "t0" (.elem "body" [] []) _
    rfl (Or.inl rfl)

/-- C1 (amended): with a successful fetch and all three landmarks
present, extraction yields between 0 and 20 records; each emitted
record has as videoUrl the href of the video link of its entry (empty
when the href attribute is absent), so videoUrls are all non-empty
whenever every present video link carries a non-empty href. -/
theorem extraction_bounded_and_nonempty_urls (s : WorkflowState)
    (soup hd sec vl : Node) (anc anc2 : List Node)
    (herr : errTruthy s.error = false)
    (hraw : s.raw_html = some soup)
    (hhd : findDesc isAllHeader soup = some (hd, anc))
    (hsec : findParentNode isPageSection anc = some sec)
    (hvl : findDesc isVideoList sec = some (vl, anc2))
    (hhref : ∀ item ∈ findAllDesc isVideoItem vl,
      (findDesc isVideoLink item).isSome = true → hrefStr item ≠ "") :
    ∃ videos, (extract_videos_node s).trending_videos = some videos ∧
      videos.length ≤ 20 ∧ ∀ v ∈ videos, v.video_url ≠ "" := by
  have hred : extract_videos_node s = extractFromSoup soup := by
    unfold extract_videos_node
    rw [herr, hraw]
    simp
  rw [hred]
  unfold extractFromSoup
  simp only [hhd, hsec, hvl]
  cases hE : extractTop (findAllDesc isVideoItem vl) with
  | error msg =>
    exact ⟨[], rfl, by simp, by simp⟩
  | ok vs =>
    refine ⟨vs, rfl, ?_, ?_⟩
    · have hlen := extractItems_length _ _ _ _ hE
      have htk : ((findAllDesc isVideoItem vl).take 20).length ≤ 20 :=
        List.length_take_le _ _
      simp only [List.length_nil] at hlen
      omega
    · intro v hv
      rcases extractItems_mem _ _ _ _ hE v hv with
        hin | ⟨it, hit, acc2, r, he⟩
      · exact absurd hin (List.not_mem_nil v)
      · obtain ⟨r0, ha⟩ := processItem_emit acc2 it v r he
        obtain ⟨_, _, hsome, hurl⟩ := afterRank_emit it r0 v r ha
        have hmem : it ∈ findAllDesc isVideoItem vl :=
          List.take_subset 20 _ hit
        rw [hurl]
        exact hhref it hmem hsome

/-- C1 counterexample to the claim as stated: a well-formed document
(all three landmarks present, extraction reports no error) whose only
entry has a video link without an href; the emitted record has an
empty videoUrl. -/
theorem extraction_emits_empty_video_url :
    (findDesc isAllHeader (mkDoc [itemNoHref])).isSome = true ∧
    (extract_videos_node (fetchedState (mkDoc [itemNoHref]))).error =
      none ∧
    (extract_videos_node
        (fetchedState (mkDoc [itemNoHref]))).trending_videos =
      some [{ title := "No title", channel := "", thumbnail_url := "",
              video_url := "", rank := 1 }] :=
  ⟨rfl, rfl, rfl⟩

/-- C1 witness: one entry whose link has a non-empty href. -/
theorem extraction_bounded_and_nonempty_urls_witness :
    ∃ videos, (extract_videos_node
        (fetchedState (mkDoc [itemGood "v1"]))).trending_videos =
      some videos ∧ videos.length ≤ 20 ∧
      ∀ v ∈ videos, v.video_url ≠ "" :=
  extraction_bounded_and_nonempty_urls
    (fetchedState (mkDoc [itemGood "v1"])) _ _ _ _ _ _
    rfl rfl rfl rfl rfl (by decide)

/-- C3: for a list entry whose rank label is absent, an emitted record
gets rank one more than the number of records accumulated so far (the
videos argument of the loop body); an entry whose rank label text is
non-numeric never reaches emission at all, so the property holds for
every emitted record covered by the claim. -/
theorem rank_fallback_sequential (videos : List TrendingVideo)
    (item : Node) (v : TrendingVideo) (r : Int)
    (hlabel : findDesc isRankSpan item = none ∨
      ∃ sp anc, findDesc isRankSpan item = some (sp, anc) ∧
        parseInt sp.getTextStrip = none)
    (hemit : processItem videos item = .emit v r) :
    v.rank = Int.ofNat videos.length + 1 := by
  rcases hlabel with h1 | ⟨sp, anc, h1, h2⟩
  · rw [processItem_no_rank_span videos item h1] at hemit
    obtain ⟨_, hrank, _, _⟩ := afterRank_emit _ _ _ _ hemit
    exact hrank
  · rw [processItem_bad_rank_text videos item sp anc h1 h2] at hemit
    exact ItemStep.noConfusion hemit

/-- C3 witness: an entry without a rank label emitted after two
accumulated records gets rank 3. -/
theorem rank_fallback_sequential_witness :
    ({ title := "No title", channel := "", thumbnail_url := "",
       video_url := "u3", rank := 3 } : TrendingVideo).rank =
      Int.ofNat (List.length
        [({ title := "a", channel := "", thumbnail_url := "",
            video_url := "x", rank := 1 } : TrendingVideo),
         { title := "b", channel := "", thumbnail_url := "",
            video_url := "y", rank := 2 }]) + 1 :=
  rank_fallback_sequential
    [{ title := "a", channel := "", thumbnail_url := "",
       video_url := "x", rank := 1 },
     { title := "b", channel := "", thumbnail_url := "",
       video_url := "y", rank := 2 }]
    (itemGood "u3") _ _ (Or.inl rfl) rfl

/-- C2 evaluation at the failing input: when the FIRST entry raises in
int() (non-numeric rank text), the except handler itself raises
(UnboundLocalError on the local rank, never yet bound), the loop
aborts, the run-level error is set and every record is discarded —
contradicting the claim that an item-level failure only skips that
entry. The same bad entry placed after a good one is merely skipped,
as the claim describes, because rank then holds a stale binding. -/
theorem first_item_rank_exception_aborts_run :
    (extract_videos_node
        (fetchedState (mkDoc [itemBadRank, itemGood "u2"]))).error =
      some ("Failed to extract videos: " ++ unboundLocalMsg) ∧
    (extract_videos_node
        (fetchedState
          (mkDoc [itemBadRank, itemGood "u2"]))).trending_videos =
      some [] ∧
    (extract_videos_node
        (fetchedState
          (mkDoc [itemGood "u1", itemBadRank, itemGood "u3"]))).error =
      none ∧
    (extract_videos_node
        (fetchedState
          (mkDoc [itemGood "u1", itemBadRank,
            itemGood "u3"]))).trending_videos =
      some [{ title := "No title", channel := "", thumbnail_url := "",
              video_url := "u1", rank := 1 },
            { title := "No title", channel := "", thumbnail_url := "",
              video_url := "u3", rank := 2 }] :=
  ⟨rfl, rfl, rfl, rfl⟩

/-- C7: for an emitted record whose entry has an info paragraph, the
channel is empty when the paragraph holds fewer than two font-medium
spans, and is the stripped text of the second such span (index 1) when
at least two exist. -/
theorem channel_second_medium_span (videos : List TrendingVideo)
    (item lk p : Node) (anc anc2 : List Node) (v : TrendingVideo)
    (r : Int)
    (hemit : processItem videos item = .emit v r)
    (hlk : findDesc isVideoLink item = some (lk, anc))
    (hp : findDesc isInfoP lk = some (p, anc2)) :
    ((findAllDesc isChannelSpan p).length < 2 → v.channel = "") ∧
    (∀ sp, (findAllDesc isChannelSpan p)[1]? = some sp →
      v.channel = sp.getTextStrip) := by
  obtain ⟨r0, ha⟩ := processItem_emit videos item v r hemit
  unfold afterRank at ha
  simp only [hlk, hp, ItemStep.emit.injEq] at ha
  obtain ⟨hv, _⟩ := ha
  constructor
  · intro hlen
    rw [← hv]
    simp [Nat.not_le.mpr hlen]
  · intro sp hsp
    have hlt : 1 < (findAllDesc isChannelSpan p).length :=
      (List.getElem?_eq_some.mp hsp).choose
    rw [← hv]
    simp [Nat.succ_le_of_lt hlt, hsp]

/-- C7 witness: an entry whose info paragraph has a single font-medium
span gets an empty channel; one with two gets the text of the
second. -/
theorem channel_second_medium_span_witness :
    ({ title := "No title", channel := "", thumbnail_url := "",
       video_url := "u2", rank := 1 } : TrendingVideo).channel = "" ∧
    ({ title := "No title", channel := "ChannelX", thumbnail_url := "",
       video_url := "u4", rank := 1 } : TrendingVideo).channel =
      "ChannelX" :=
  ⟨(channel_second_medium_span [] itemOneSpan _ _ _ _ _ _
      rfl rfl rfl).1 (by decide),
   (channel_second_medium_span [] itemTwoSpans _ _ _ _ _ _
      rfl rfl rfl).2 _ rfl⟩

/-- C6: when the target list holds more than 20 well-formed entries
(video link present; rank label absent so ranks are assigned
sequentially), the output has exactly 20 records, with ranks 1 to 20
in document order, each drawn from the entry at the same position; and
the loop is invariant under truncating the entry list to its first 20,
so entries past the first 20 are never considered. -/
theorem top20_truncation (s : WorkflowState) (soup hd sec vl : Node)
    (anc anc2 : List Node)
    (herr : errTruthy s.error = false)
    (hraw : s.raw_html = some soup)
    (hhd : findDesc isAllHeader soup = some (hd, anc))
    (hsec : findParentNode isPageSection anc = some sec)
    (hvl : findDesc isVideoList sec = some (vl, anc2))
    (hlen : 20 < (findAllDesc isVideoItem vl).length)
    (hgood : ∀ item ∈ findAllDesc isVideoItem vl,
      (findDesc isRankSpan item).isNone = true ∧
      (findDesc isVideoLink item).isSome = true) :
    ∃ videos, (extract_videos_node s).trending_videos = some videos ∧
      videos.length = 20 ∧
      (∀ i, i < 20 → ∃ v item,
        videos[i]? = some v ∧
        (findAllDesc isVideoItem vl)[i]? = some item ∧
        v.rank = Int.ofNat i + 1 ∧ v.video_url = hrefStr item) ∧
      extractTop (findAllDesc isVideoItem vl) =
        extractTop ((findAllDesc isVideoItem vl).take 20) := by
  have htrunc : extractTop (findAllDesc isVideoItem vl) =
      extractTop ((findAllDesc isVideoItem vl).take 20) := by
    unfold extractTop
    rw [List.take_take]
    norm_num
  have hred : extract_videos_node s = extractFromSoup soup := by
    unfold extract_videos_node
    rw [herr, hraw]
    simp
  have htklen : ((findAllDesc isVideoItem vl).take 20).length = 20 := by
    rw [List.length_take]
    omega
  obtain ⟨vs, hok, hvslen, hidx⟩ :=
    extractItems_good ((findAllDesc isVideoItem vl).take 20) [] none
      (fun it hit => hgood it (List.take_subset 20 _ hit))
  have hvslen20 : vs.length = 20 := by rw [hvslen, htklen]
  refine ⟨vs, ?_, hvslen20, ?_, htrunc⟩
  · rw [hred]
    unfold extractFromSoup
    simp only [hhd, hsec, hvl]
    have hE : extractTop (findAllDesc isVideoItem vl) = .ok vs := by
      unfold extractTop
      rw [hok]
      simp
    rw [hE]
  · intro i hi
    have hv : i < vs.length := by omega
    have hl : i < ((findAllDesc isVideoItem vl).take 20).length := by
      omega
    have hl2 : i < (findAllDesc isVideoItem vl).length := by omega
    obtain ⟨hrank, hurl⟩ := hidx i hv hl
    refine ⟨vs.get ⟨i, hv⟩,
      (findAllDesc isVideoItem vl).get ⟨i, hl2⟩, ?_, ?_, ?_, ?_⟩
    · simp
    · simp
    · simpa using hrank
    · rw [hurl]
      congr 1
      simp [List.getElem_take]

/-- C6 witness: a document whose list has 25 well-formed entries. -/
theorem top20_truncation_witness :
    ∃ videos, (extract_videos_node
        (fetchedState
          (mkDoc (List.replicate 25 (itemGood "u"))))).trending_videos =
      some videos ∧ videos.length = 20 ∧
      (∀ i, i < 20 → ∃ v item,
        videos[i]? = some v ∧
        (findAllDesc isVideoItem
          (.elem "ol" [("aria-labelledby", "group-all"),
            ("class", "video-list")]
            (List.replicate 25 (itemGood "u"))))[i]? = some item ∧
        v.rank = Int.ofNat i + 1 ∧ v.video_url = hrefStr item) ∧
      extractTop (findAllDesc isVideoItem
          (.elem "ol" [("aria-labelledby", "group-all"),
            ("class", "video-list")]
            (List.replicate 25 (itemGood "u")))) =
        extractTop ((findAllDesc isVideoItem
          (.elem "ol" [("aria-labelledby", "group-all"),
            ("class", "video-list")]
            (List.replicate 25 (itemGood "u")))).take 20) :=
  top20_truncation
    (fetchedState (mkDoc (List.replicate 25 (itemGood "u"))))
    _ _ _ _ _ _ rfl rfl rfl rfl rfl (by decide) (by decide)

theorem extract_update_keeps_raw_and_time (s : WorkflowState) :
    (extract_videos_node s).raw_html = none ∧
    (extract_videos_node s).timestamp = none := by
  unfold extract_videos_node extractFromSoup
  split
  · exact ⟨rfl, rfl⟩
  · split
    · exact ⟨rfl, rfl⟩
    · split
      · exact ⟨rfl, rfl⟩
      · split
        · exact ⟨rfl, rfl⟩
        · split
          · exact ⟨rfl, rfl⟩
          · split
            · exact ⟨rfl, rfl⟩
            · exact ⟨rfl, rfl⟩

/-- C9: a run from the notebook initial state is append-only: the url
is never changed, the raw markup, timestamp and error set by the
fetch stage survive the extract stage unchanged (so the first error is
never overwritten and error is set at most once), and no stage other
than the extractor ever writes the videos field (it is still the
initial empty list when the extractor runs). -/
theorem state_append_only (url : String) (http : String → FetchOutcome) :
    (initialState url).error = none ∧
    (applyUpdate (initialState url)
      (fetch_page_node http (initialState url))).trending_videos = [] ∧
    (runPipeline http (initialState url)).url = url ∧
    (∀ h, (applyUpdate (initialState url)
        (fetch_page_node http (initialState url))).raw_html = some h →
      (runPipeline http (initialState url)).raw_html = some h) ∧
    (∀ t, (applyUpdate (initialState url)
        (fetch_page_node http (initialState url))).timestamp = some t →
      (runPipeline http (initialState url)).timestamp = some t) ∧
    (∀ e, (applyUpdate (initialState url)
        (fetch_page_node http (initialState url))).error = some e →
      (runPipeline http (initialState url)).error = some e) := by
  set s1 := applyUpdate (initialState url)
    (fetch_page_node http (initialState url)) with hs1def
  have hfix := extract_update_keeps_raw_and_time s1
  have hraw : (runPipeline http (initialState url)).raw_html =
      s1.raw_html := by
    simp only [runPipeline, ← hs1def]
    unfold applyUpdate
    rw [hfix.1]
  have htime : (runPipeline http (initialState url)).timestamp =
      s1.timestamp := by
    simp only [runPipeline, ← hs1def]
    unfold applyUpdate
    rw [hfix.2]
  have hurl : (runPipeline http (initialState url)).url = s1.url := by
    simp only [runPipeline, ← hs1def]
    rfl
  have hvids : s1.trending_videos = [] := by
    rw [hs1def]
    unfold fetch_page_node initialState applyUpdate
    cases http url <;> rfl
  refine ⟨rfl, hvids, ?_, ?_, ?_, ?_⟩
  · rw [hurl]
    rw [hs1def]
    unfold fetch_page_node initialState applyUpdate
    cases http url <;> rfl
  · intro h hh
    rw [hraw, hh]
  · intro t ht
    rw [htime, ht]
  · intro e he
    -- the fetch stage set the error, so it is a fetch failure message,
    -- which is non-empty, so the extractor short-circuits without
    -- touching the error field
    have hfail : ∃ msg t, http url = .failure msg t ∧
        e = "Failed to fetch page: " ++ msg := by
      revert he
      rw [hs1def]
      unfold fetch_page_node initialState applyUpdate
      cases hu : http url with
      | success body t => intro he; exact absurd he (by simp)
      | failure msg t =>
        intro he
        simp only [Option.some.injEq] at he
        exact ⟨msg, t, rfl, he.symm⟩
    obtain ⟨msg, t, hu, hemsg⟩ := hfail
    have hne : e ≠ "" := by
      rw [hemsg]
      exact fetch_msg_ne_empty msg
    have hsc : (extract_videos_node s1).error = none := by
      unfold extract_videos_node
      have : errTruthy s1.error = true := by
        rw [he]
        simp [errTruthy, hne]
      rw [this]
      simp
    simp only [runPipeline, ← hs1def]
    unfold applyUpdate
    rw [hsc, he]

/-- C9 witness: a run with a successful fetch of an empty document. -/
theorem state_append_only_witness :
    (runPipeline (fun _ => .success (.elem "body" [] []) "t1")
        (initialState "u")).url = "u" ∧
    (runPipeline (fun _ => .success (.elem "body" [] []) "t1")
        (initialState "u")).raw_html = some (.elem "body" [] []) ∧
    (runPipeline (fun _ => .success (.elem "body" [] []) "t1")
        (initialState "u")).timestamp = some "t1" := by
  obtain ⟨-, -, h1, h2, h3, -⟩ :=
    state_append_only "u" (fun _ => .success (.elem "body" [] []) "t1")
  exact ⟨h1, h2 _ rfl, h3 _ rfl⟩
